import Mathlib

/-!
Verification of the normalization-and-sync pipeline of `scrapagroprecios.py`.

The Python source is shallowly embedded: prices and quantities are modelled
as rationals (`ℚ`), strings as `String`/`List Char`, and each Python
function becomes an executable Lean definition translated from the source.
Regular-expression searches from the source are embedded as explicit
character-level scanners with Python `re.search` semantics (leftmost match,
alternation tried in order, greedy optional groups with backtracking).
-/

namespace ScrapAgro

/-- ASCII word character, the `\w` class of Python's `re` as it applies to
the accent-stripped lowercase text this program searches. -/
def isWordChar (c : Char) : Bool := c.isAlphanum || c = '_'

/-- Whitespace, Python's `\s` on the inputs at hand. -/
def isWs (c : Char) : Bool := c = ' ' || c = '\t' || c = '\n' || c = '\r'

/-- Source `unicodedata.normalize("NFD", ·)` followed by removal of combining marks
(`strip_accents` in the source), modelled on the Spanish alphabet the
program processes: each precomposed accented letter maps to its base
letter, every other character is unchanged. -/
def stripAccentChar : Char → Char
  | 'á' => 'a' | 'é' => 'e' | 'í' => 'i' | 'ó' => 'o' | 'ú' => 'u'
  | 'ü' => 'u' | 'ñ' => 'n'
  | 'Á' => 'A' | 'É' => 'E' | 'Í' => 'I' | 'Ó' => 'O' | 'Ú' => 'U'
  | 'Ü' => 'U' | 'Ñ' => 'N'
  | c => c

/-- Source `normalize_text`: strip accents then lowercase; we return the character
list the scanners below consume. -/
def normalize_text (s : String) : List Char :=
  s.data.map (fun c => (stripAccentChar c).toLower)

/-- Python's `pat in s` substring test. -/
def containsSub (pat : List Char) : List Char → Bool
  | [] => pat.isEmpty
  | c :: t => pat.isPrefixOf (c :: t) || containsSub pat t

/-- Word-ness of an optional character; out-of-range positions count as
non-word for `\b`. -/
def wordnessOpt : Option Char → Bool
  | none => false
  | some c => isWordChar c

/-- Python `\b`: a boundary lies between two positions iff exactly one side
is a word character. -/
def isBoundary (prev next : Option Char) : Bool :=
  wordnessOpt prev != wordnessOpt next

/-- Digits of a decimal numeral. -/
def natOfDigits (ds : List Char) : Nat :=
  ds.foldl (fun n c => 10 * n + (c.toNat - 48)) 0

/-- Split a character list at `'.'` occurrences (Python `str.split('.')`
shape, used to model `float()`). -/
def splitDot : List Char → List (List Char)
  | [] => [[]]
  | c :: t =>
      let r := splitDot t
      if c = '.' then [] :: r
      else
        match r with
        | [] => [[c]]
        | h :: rest => (c :: h) :: rest

/-- The rational of a natural number, written so that kernel reduction
(and hence `decide`) evaluates it. -/
def qOfNat (n : Nat) : ℚ := Rat.divInt (Int.ofNat n) 1

/-- Python `float(s)` on the strings this program builds (digits and
periods only): `none` models a raised `ValueError`.  The value of the
numeral `a.b` is `(a * 10^|b| + b) / 10^|b|`. -/
def pyFloat? (l : List Char) : Option ℚ :=
  if l.isEmpty then none
  else if !(l.all fun c => c.isDigit || c = '.') then none
  else
    match splitDot l with
    | [ds] => if ds.isEmpty then none else some (qOfNat (natOfDigits ds))
    | [a, b] =>
        if a.isEmpty && b.isEmpty then none
        else some (Rat.divInt
          (Int.ofNat (natOfDigits a * 10 ^ b.length + natOfDigits b))
          (Int.ofNat (10 ^ b.length)))
    | _ => none

/-- Multiplication of rationals, written through `Rat.divInt` so that the
kernel evaluates it on concrete inputs (`qMul_eq` below identifies it with
`·*·`). -/
def qMul (a b : ℚ) : ℚ := Rat.divInt (a.num * b.num) (a.den * b.den)

/-- Division of rationals through `Rat.divInt` (`qDiv_eq` below identifies
it with `·/·`). -/
def qDiv (a b : ℚ) : ℚ := Rat.divInt (a.num * b.den) (a.den * b.num)

/-- Source `_to_float`: remove every period (thousands separator), turn the comma
into a decimal point, then `float(...)` with `0.0` on failure. -/
def _to_float (l : List Char) : ℚ :=
  let s := (l.filter fun c => c != '.').map fun c => if c = ',' then '.' else c
  (pyFloat? s).getD 0

/-- Source `norm_price`: keep only digits, commas and periods, drop the periods,
turn the comma into a decimal point, and parse; unparseable text yields
`0.0`. -/
def norm_price (val : String) : ℚ :=
  let kept := val.data.filter fun c => c.isDigit || c = ',' || c = '.'
  let txt := (kept.filter fun c => c != '.').map fun c => if c = ',' then '.' else c
  (pyFloat? txt).getD 0

/-! ### A small pattern language

The classification code of the source uses a handful of compiled regular
expressions only through `.search` (a boolean).  `Pat` embeds exactly the
constructs those patterns use (literals, alternation, optional groups, a
character class, `\s+` and `\b`); `pmatch` is a backtracking matcher that
returns the set of states (last consumed character, remaining input) a
pattern can reach, and `psearch` is `re.search`: try every start position
from the left. -/

inductive Pat where
  | lit (s : List Char)
  | cls (cs : List Char)
  | seq (a b : Pat)
  | alt (a b : Pat)
  | opt (a : Pat)
  | wsPlus
  | bnd
deriving Repr

/-- Consume one or more whitespace characters; every possible split is a
resulting state. -/
def wsTakeStates : List Char → List (Option Char × List Char)
  | [] => []
  | c :: t => if isWs c then (some c, t) :: wsTakeStates t else []

/-- All states `(last consumed char, remaining input)` reachable by
matching `p` at the start of `l`, where `prev` is the character just
before `l` (for `\b`). -/
def pmatch : Pat → Option Char → List Char → List (Option Char × List Char)
  | .lit s, prev, l =>
      if s.isPrefixOf l then [(if s.isEmpty then prev else s.getLast?, l.drop s.length)]
      else []
  | .cls cs, _, l =>
      match l with
      | [] => []
      | c :: t => if cs.contains c then [(some c, t)] else []
  | .seq a b, prev, l => (pmatch a prev l).flatMap fun st => pmatch b st.1 st.2
  | .alt a b, prev, l => pmatch a prev l ++ pmatch b prev l
  | .opt a, prev, l => pmatch a prev l ++ [(prev, l)]
  | .wsPlus, _, l => wsTakeStates l
  | .bnd, prev, l => if isBoundary prev l.head? then [(prev, l)] else []

/-- Source `re.search(p, l)` as a boolean: does `p` match starting at some
position of `l`? -/
def psearchAux (p : Pat) : Option Char → List Char → Bool
  | prev, [] => !(pmatch p prev []).isEmpty
  | prev, c :: t => !(pmatch p prev (c :: t)).isEmpty || psearchAux p (some c) t

def psearch (p : Pat) (l : List Char) : Bool := psearchAux p none l

/-- Literal pattern from a string. -/
def plit (s : String) : Pat := .lit s.data

/-- Source `\b…\b` around a literal: the whole-word search
`re.search(rf"\b{re.escape(p)}\b", d)` of the source. -/
def pword (s : String) : Pat := .seq .bnd (.seq (plit s) .bnd)

/-- n-ary alternation, associated like the `|` of the source patterns. -/
def palts : List Pat → Pat
  | [] => .lit ['\x00']
  | [p] => p
  | p :: ps => .alt p (palts ps)

/-- Source `[oa]`-style suffix used by the exclusion patterns. -/
def poa (s : String) : Pat := .seq (plit s) (.cls ['o', 'a'])

end ScrapAgro

namespace ScrapAgro

/-! ### Exclusion regexes of the freshness classifier (`clasifica_producto`) -/

/-- Source `EXCLUSIONES_GENERALES_RE`. -/
def EXCLUSIONES_GENERALES_RE : Pat :=
  .seq .bnd (.seq (palts
    [plit "extracto", plit "jugo", plit "sabor", plit "pulpa", plit "pure",
     plit "salsa", plit "lata", .seq (plit "en") (.seq .wsPlus (plit "conserva")),
     poa "encurtid", poa "congelad", poa "deshidratad", plit "pate",
     plit "mermelada", plit "chips", plit "snack", plit "polvo", plit "humo"]) .bnd)

/-- Source `TOMATE_EXC_RE`. -/
def TOMATE_EXC_RE : Pat :=
  palts
    [.seq (plit "arroz") (.seq .wsPlus (.seq (plit "con") (.seq .wsPlus (plit "tomate")))),
     .seq (plit "en") (.seq .wsPlus (plit "tomate")),
     .seq (plit "salsa") (.seq (.opt (.seq .wsPlus (plit "de"))) (.seq .wsPlus (plit "tomate"))),
     plit "ketchup",
     .seq (plit "tomate") (.seq .wsPlus (.seq (plit "en") (.seq .wsPlus (plit "polvo")))),
     .seq (plit "tomate") (.seq .wsPlus (.seq (plit "en") (.seq .wsPlus (plit "lata")))),
     plit "extracto", plit "jugo", plit "pulpa", plit "pure",
     poa "congelad", poa "deshidratad"]

/-- Source `CEBOLLA_EXC_RE`. -/
def CEBOLLA_EXC_RE : Pat :=
  palts
    [.seq (plit "en") (.seq .wsPlus (plit "polvo")), plit "salsa", plit "conserva",
     poa "encurtid", poa "congelad", poa "deshidratad", plit "pate", plit "crema",
     plit "sopa"]

/-- Source `PAPA_EXC_RE`. -/
def PAPA_EXC_RE : Pat :=
  palts
    [plit "chips", plit "frita", plit "fritas", plit "chuño", plit "pure",
     poa "congelad", poa "deshidratad", plit "harina", plit "sopa", plit "snack"]

/-- Source `ZANAHORIA_EXC_RE`. -/
def ZANAHORIA_EXC_RE : Pat :=
  palts
    [plit "jugo", plit "pure", plit "conserva", poa "congelad", poa "deshidratad",
     plit "salsa", plit "tarta", plit "pastel", plit "mermelada"]

/-- Source `REMOLACHA_EXC_RE`. -/
def REMOLACHA_EXC_RE : Pat :=
  palts
    [.seq (plit "en") (.seq .wsPlus (plit "lata")), plit "conserva", poa "encurtid",
     poa "congelad", poa "deshidratad", plit "jugo", plit "pulpa", plit "mermelada"]

/-- Source `BANANA_EXC_RE`. -/
def BANANA_EXC_RE : Pat :=
  palts
    [plit "harina", plit "polvo", plit "chips", plit "frita", plit "dulce",
     plit "mermelada", plit "batido", plit "jugo", plit "snack", plit "pure",
     poa "congelad", poa "deshidratad"]

/-- Source `CITRICOS_EXC_RE`. -/
def CITRICOS_EXC_RE : Pat :=
  palts
    [plit "jugo", plit "mermelada", poa "concentrad", plit "esencia", plit "sabor",
     plit "pulpa", poa "congelad", poa "deshidratad", plit "dulce", plit "jarabe"]

/-- Inline regex in the `"Morrón rojo"` branch of `clasifica_producto`. -/
def MORRON_EXC_RE : Pat :=
  palts
    [plit "salsa", plit "mole", plit "pasta", plit "conserva", plit "encurtido",
     .seq (plit "en") (.seq .wsPlus (plit "vinagre")),
     .seq (plit "en") (.seq .wsPlus (plit "lata")),
     poa "molid", poa "deshidratad", poa "congelad", plit "pulpa", plit "pate"]

/-- Inline regex in the `"Lechuga fresca"` branch of `clasifica_producto`. -/
def LECHUGA_EXC_RE : Pat :=
  palts
    [.seq (plit "ensalada") (.seq .wsPlus (plit "procesada")),
     .seq (plit "mix") (.seq .wsPlus (.seq (plit "de") (.seq .wsPlus (plit "ensaladas")))),
     poa "congelad", poa "deshidratad"]

/-- Source `clasifica_producto`: the ordered fresh-produce rule table; the first
rule whose inclusion test matches and whose exclusion regex does not wins. -/
def clasifica_producto (descripcion : String) : String :=
  let d := normalize_text descripcion
  if d.isEmpty then ""
  else if containsSub "tomate".data d && !psearch TOMATE_EXC_RE d then "Tomate fresco"
  else if (["morron", "locote", "pimiento", "pimenton"].any fun k => containsSub k.data d)
          && containsSub "rojo".data d && !psearch MORRON_EXC_RE d then "Morrón rojo"
  else if containsSub "cebolla".data d && !psearch CEBOLLA_EXC_RE d then "Cebolla fresca"
  else if (containsSub "papa".data d || containsSub "patata".data d)
          && !psearch PAPA_EXC_RE d then "Papa fresca"
  else if containsSub "zanahoria".data d && !psearch ZANAHORIA_EXC_RE d then "Zanahoria fresca"
  else if containsSub "lechuga".data d && !psearch LECHUGA_EXC_RE d then "Lechuga fresca"
  else if containsSub "remolacha".data d && !psearch REMOLACHA_EXC_RE d then "Remolacha fresca"
  else if (containsSub "rucula".data d || containsSub "arugula".data d)
          && !psearch EXCLUSIONES_GENERALES_RE d then "Rúcula fresca"
  else if containsSub "berro".data d && !psearch EXCLUSIONES_GENERALES_RE d then "Berro fresco"
  else if (["banana", "banano", "platano", "guineo"].any fun k => containsSub k.data d)
          && !psearch BANANA_EXC_RE d then "Banana fresca"
  else if (["naranja", "mandarina", "pomelo", "limon", "apepu"].any fun k => containsSub k.data d)
          && !psearch CITRICOS_EXC_RE d then "Cítrico fresco"
  else ""

/-! ### Group/subgroup taxonomy and classifier -/

/-- Source `TAXONOMY`, in declaration order (Python dicts preserve insertion
order). -/
def TAXONOMY : List (String × List (String × List String)) :=
  [("Verduras",
    [("Tomate", ["tomate", "perita", "cherry"]),
     ("Cebolla", ["cebolla"]),
     ("Papa", ["papa", "patata"]),
     ("Zanahoria", ["zanahoria"]),
     ("Lechuga", ["lechuga", "capuchina", "mantecosa", "romana"]),
     ("Morron", ["morron", "locote", "pimiento", "pimenton"]),
     ("Remolacha", ["remolacha"]),
     ("Rucula", ["rucula", "arugula"]),
     ("Berro", ["berro"]),
     ("Pepino", ["pepino"]),
     ("Ajo", ["ajo"]),
     ("Zapallo", ["zapallo", "calabaza"]),
     ("Repollo", ["repollo"]),
     ("Cebollita de verdeo", ["verdeo", "cebollita"])]),
   ("Frutas",
    [("Banana", ["banana", "banano", "platano", "guineo"]),
     ("Naranja", ["naranja", "apepu"]),
     ("Mandarina", ["mandarina"]),
     ("Pomelo", ["pomelo"]),
     ("Limon", ["limon"]),
     ("Manzana", ["manzana"]),
     ("Pera", ["pera"]),
     ("Uva", ["uva"]),
     ("Frutilla", ["frutilla", "fresa"]),
     ("Anana", ["anana", "piña"]),
     ("Sandia", ["sandia"]),
     ("Melon", ["melon"])]),
   ("Lacteos",
    [("Leche Entera", ["leche entera", "entera", "3%", "3,0%", "3.0%"]),
     ("Leche Descremada", ["leche descremada", "descremada", "0%", "0,5%", "0.5%"]),
     ("Yogur", ["yogur", "yoghurt", "yogurt"]),
     ("Queso Paraguay", ["queso paraguay", "paraguay"]),
     ("Queso Mozzarella", ["mozzarella", "muzzarella"]),
     ("Queso Ricotta", ["ricotta"]),
     ("Queso Cuartirolo", ["cuartirolo"]),
     ("Manteca", ["manteca", "mantequilla"]),
     ("Crema de leche", ["crema de leche", "nata"])]),
   ("Huevos",
    [("Huevo Gallina", ["huevo", "huevos", "docena", "media docena"]),
     ("Huevo Codorniz", ["codorniz"])]),
   ("Panificados",
    [("Pan", ["pan", "baguette", "lactal", "sandwich"]),
     ("Galleta", ["galleta", "cracker", "cookies"]),
     ("Bizcocho", ["bizcocho", "factura"]),
     ("Tortilla", ["tortilla"])]),
   ("Cereales y Granos",
    [("Arroz", ["arroz"]),
     ("Fideos", ["fideo", "pasta", "spaghetti", "tallarines"]),
     ("Harina", ["harina", "trigo 000", "000", "0000"]),
     ("Avena", ["avena"]),
     ("Legumbres", ["lenteja", "poroto", "garbanzo"])]),
   ("Aceites y Grasas",
    [("Aceite Girasol", ["aceite girasol"]),
     ("Aceite Soja", ["aceite soja", "aceite soya"]),
     ("Aceite Maiz", ["aceite maiz", "aceite maíz"]),
     ("Aceite Oliva", ["aceite oliva", "oliva extra virgen", "extra virgen"])]),
   ("Dulces y Azucares",
    [("Azucar", ["azucar", "azúcar"]),
     ("Dulce de leche", ["dulce de leche"]),
     ("Mermelada", ["mermelada"]),
     ("Cacao", ["cacao", "chocolate en polvo"])]),
   ("Bebidas",
    [("Agua", ["agua", "agua mineral"]),
     ("Gaseosa", ["gaseosa", "cola", "coca cola", "pepsi"]),
     ("Jugo", ["jugo", "zumo", "nectar", "néctar"]),
     ("Cerveza", ["cerveza"]),
     ("Vino", ["vino"])])]

/-- Score of one configured keyword against the normalized name: 3 for a
whole-word match, 1 for a bare substring, 0 otherwise. -/
def patScore (d : List Char) (p : String) : Nat :=
  if psearch (pword p) d then 3 else if containsSub p.data d then 1 else 0

/-- The fixed domain-specific tie-break bonus of `classify_group_subgroup`. -/
def groupBonus (d : List Char) (g : String) : Nat :=
  (if g = "Lacteos" && containsSub "leche".data d then 1 else 0) +
  (if g = "Huevos" && (containsSub "docena".data d || containsSub "huevo".data d) then 1 else 0)

/-- Total score of a `(group, subgroup)` pair. -/
def pairScore (d : List Char) (g : String) (pats : List String) : Nat :=
  (pats.foldl (fun acc p => acc + patScore d p) 0) + groupBonus d g

/-- All `(group, subgroup, score)` entries in taxonomy declaration order. -/
def scoredEntries (d : List Char) : List (String × String × Nat) :=
  TAXONOMY.flatMap fun gp => gp.2.map fun sp => (gp.1, sp.1, pairScore d gp.1 sp.2)

/-- The best score over a list of scored entries. -/
def maxScore (l : List (String × String × Nat)) : Nat :=
  l.foldr (fun e m => max e.2.2 m) 0

/-- One step of the source's running-best loop: a later entry replaces the
best only with a strictly higher score. -/
def pickStep (b e : String × String × Nat) : String × String × Nat :=
  if b.2.2 < e.2.2 then e else b

/-- The running best over all entries, started at `("", "", 0)`. -/
def pickBest (l : List (String × String × Nat)) : String × String × Nat :=
  l.foldl pickStep ("", "", 0)

/-- Fallback of `classify_group_subgroup`: the first group one of whose
keywords occurs as a substring. -/
def fallbackGroup (d : List Char) : String :=
  match TAXONOMY.find? (fun gp => gp.2.any fun sp => sp.2.any fun p => containsSub p.data d) with
  | some gp => gp.1
  | none => ""

/-- Source `classify_group_subgroup`. -/
def classify_group_subgroup (name : String) : String × String :=
  let d := normalize_text name
  let b := pickBest (scoredEntries d)
  if b.1 = "" then (fallbackGroup d, b.2.1) else (b.1, b.2.1)

/-! ### Name-level exclusion (`is_excluded`) -/

/-- Source `EXCLUDE_PATTERNS` joined by `|`:
`\bcombo\b`, `\bpack\b\s*\b(oferta|ahorro|promo)\b`, `\bdisney\b`. -/
def EXCLUDE_RE : Pat :=
  palts
    [pword "combo",
     .seq (pword "pack") (.seq (.opt .wsPlus)
       (.seq .bnd (.seq (palts [plit "oferta", plit "ahorro", plit "promo"]) .bnd))),
     pword "disney"]

/-- Source `is_excluded`: case-insensitive search on the raw (not
accent-stripped) name; `re.IGNORECASE` over ASCII patterns equals a search
in the lowercased name. -/
def is_excluded (name : String) : Bool :=
  psearch EXCLUDE_RE (name.data.map Char.toLower)

/-! ### Unit parsing (`parse_unidad_corr` and its regexes)

`RE_MULTIPACK`, `RE_FRACTION`, `RE_UNITS` and `RE_DOCENA` are embedded as
dedicated scanners that return the capture groups the source reads.  Each
follows Python semantics: leftmost match position wins, the optional
count/lead groups are tried greedily first, and unit alternatives are
tried in the order they appear in the pattern, each subject to the
trailing `\b`. -/

/-- Maximal run of decimal digits (`\d+` greedily). -/
def takeDigits : List Char → List Char × List Char
  | [] => ([], [])
  | c :: t =>
      if c.isDigit then
        let (ds, r) := takeDigits t
        (c :: ds, r)
      else ([], c :: t)

/-- Skip whitespace (`\s*`). -/
def skipWs : List Char → List Char
  | [] => []
  | c :: t => if isWs c then skipWs t else c :: t

/-- Match a literal at the start of the input and return the rest. -/
def litThen (s : List Char) (l : List Char) : Option (List Char) :=
  if s.isPrefixOf l then some (l.drop s.length) else none

/-- Source `\s+` followed by maximal skip (the tokens that follow never start
with whitespace, so greedy consumption is exact). -/
def ws1 : List Char → Option (List Char)
  | [] => none
  | c :: t => if isWs c then some (skipWs t) else none

/-- The first unit alternative (in pattern order) that is a prefix of the
input with a `\b` after it. -/
def matchUnitAlt (alts : List (List Char)) (l : List Char) : Option (List Char) :=
  alts.find? fun u => u.isPrefixOf l && isBoundary u.getLast? ((l.drop u.length).head?)

/-- Unit alternatives of `RE_MULTIPACK` (and of the bare-size pattern of
step 4), in pattern order. -/
def MULTIPACK_UNITS : List (List Char) :=
  ["kg", "kilo", "g", "gr", "l", "lt", "litro", "ml", "cc"].map String.data

/-- Unit alternatives of `RE_FRACTION`. -/
def FRACTION_UNITS : List (List Char) :=
  ["kg", "kilo", "l", "lt", "litro"].map String.data

/-- Source `(?P<size>\d+(?:[.,]\d+)?)\s*(?P<unit>…)\b` at the start of `l`:
returns (size token, unit token).  The greedy fractional part is tried
first and the integer reading is the backtracking fallback, exactly as
Python's engine does. -/
def matchSizeUnit (units : List (List Char)) (l : List Char) :
    Option (List Char × List Char) :=
  let (ds, r1) := takeDigits l
  if ds.isEmpty then none
  else
    let core := fun (tok rest : List Char) =>
      let r := skipWs rest
      match matchUnitAlt units r with
      | some u => some (tok, u)
      | none => none
    let withFrac :=
      match r1 with
      | c :: t =>
          if c = '.' || c = ',' then
            let (ds2, r3) := takeDigits t
            if ds2.isEmpty then none else core (ds ++ c :: ds2) r3
          else none
      | [] => none
    match withFrac with
    | some m => some m
    | none => core ds r1

/-- Source `RE_MULTIPACK` at the start of `l`: optional `(?P<count>\d+)\s*[x×]\s*`
then size and unit; without the count group the count is 1. -/
def matchMultipackAt (l : List Char) : Option (Nat × List Char × List Char) :=
  let withCount :=
    let (cds, r1) := takeDigits l
    if cds.isEmpty then none
    else
      match skipWs r1 with
      | c :: t =>
          if c = 'x' || c = '×' then
            match matchSizeUnit MULTIPACK_UNITS (skipWs t) with
            | some (tok, u) => some (natOfDigits cds, tok, u)
            | none => none
          else none
      | [] => none
  match withCount with
  | some m => some m
  | none =>
      match matchSizeUnit MULTIPACK_UNITS l with
      | some (tok, u) => some (1, tok, u)
      | none => none

/-- Source `RE_MULTIPACK.search`: leftmost matching start position. -/
def searchMultipack : List Char → Option (Nat × List Char × List Char)
  | [] => none
  | c :: t =>
      match matchMultipackAt (c :: t) with
      | some m => some m
      | none => searchMultipack t

/-- Source `RE_FRACTION` at the start of `l`: `(?P<num>\d+)\s*/\s*(?P<den>\d+)\s*(?P<unit>…)\b`. -/
def matchFractionAt (l : List Char) : Option (Nat × Nat × List Char) :=
  let (nds, r1) := takeDigits l
  if nds.isEmpty then none
  else
    match skipWs r1 with
    | '/' :: t =>
        let (dds, r4) := takeDigits (skipWs t)
        if dds.isEmpty then none
        else
          match matchUnitAlt FRACTION_UNITS (skipWs r4) with
          | some u => some (natOfDigits nds, natOfDigits dds, u)
          | none => none
    | _ => none

/-- Source `RE_FRACTION.search`. -/
def searchFraction : List Char → Option (Nat × Nat × List Char)
  | [] => none
  | c :: t =>
      match matchFractionAt (c :: t) with
      | some m => some m
      | none => searchFraction t

/-- Source `RE_DOCENA` at a position with preceding character `prev`; `some true`
means the matched text contains `1/2` or `media` (half a dozen). -/
def matchDocenaAt (prev : Option Char) (l : List Char) : Option Bool :=
  let alt1 := do
    let r ← litThen "1/2".data l
    let r ← ws1 r
    let r ← litThen "docena".data r
    if isBoundary prev (some '1') && isBoundary (some 'a') r.head? then some true else none
  let alt2 := do
    let r ← litThen "media".data l
    let r ← ws1 r
    let r ← litThen "docena".data r
    if isBoundary prev (some 'm') && isBoundary (some 'a') r.head? then some true else none
  let alt3 := do
    let r ← litThen "docena".data l
    if isBoundary prev (some 'd') && isBoundary (some 'a') r.head? then some false else none
  (alt1.orElse fun _ => alt2).orElse fun _ => alt3

/-- Source `RE_DOCENA.search`, threading the previous character for `\b`. -/
def searchDocena : Option Char → List Char → Option Bool
  | prev, [] => matchDocenaAt prev []
  | prev, c :: t =>
      match matchDocenaAt prev (c :: t) with
      | some m => some m
      | none => searchDocena (some c) t

/-- One unit-of-count alternative of `RE_UNITS` with the optional plural
`s?` (greedy) and the trailing `\b`; returns the captured unit group. -/
def unitCountTry (u : List Char) (l : List Char) : Option (List Char) :=
  match litThen u l with
  | none => none
  | some r =>
      let withS :=
        match r with
        | 's' :: t => if isBoundary (some 's') t.head? then some u else none
        | _ => none
      match withS with
      | some m => some m
      | none => if isBoundary u.getLast? r.head? then some u else none

/-- Backtracking order of `uni(?:d)?|u|paq|paquete`. -/
def COUNT_UNIT_ALTS : List (List Char) :=
  ["unid", "uni", "u", "paq", "paquete"].map String.data

/-- Source `(?P<count>\d+)\s*(?P<unit>uni(?:d)?|u|paq|paquete)s?\b` at the start
of `l`. -/
def matchCountUnit (l : List Char) : Option (Nat × List Char) :=
  let (cds, r1) := takeDigits l
  if cds.isEmpty then none
  else
    match COUNT_UNIT_ALTS.findSome? (fun cand => unitCountTry cand (skipWs r1)) with
    | some u => some (natOfDigits cds, u)
    | none => none

/-- Source `RE_UNITS` at a position: optional `(?:\b(?:x|de)\s*)?` lead tried
first, then the count and unit-of-count. -/
def matchUnitsAt (prev : Option Char) (l : List Char) : Option (Nat × List Char) :=
  let withLead :=
    if isBoundary prev l.head? then
      match (litThen "x".data l).orElse fun _ => litThen "de".data l with
      | some r => matchCountUnit (skipWs r)
      | none => none
    else none
  match withLead with
  | some m => some m
  | none => matchCountUnit l

/-- Source `RE_UNITS.search`. -/
def searchUnits : Option Char → List Char → Option (Nat × List Char)
  | prev, [] => matchUnitsAt prev []
  | prev, c :: t =>
      match matchUnitsAt prev (c :: t) with
      | some m => some m
      | none => searchUnits (some c) t

/-- Source `_norm_unit_symbol` (on the captured token's characters). -/
def _norm_unit_symbol (u0 : List Char) : String :=
  let u := u0.map Char.toLower
  if u = "kg".data || u = "kilo".data then "GR"
  else if u = "g".data || u = "gr".data then "GR"
  else if u = "l".data || u = "lt".data || u = "litro".data then "ML"
  else if u = "ml".data || u = "cc".data then "ML"
  else if u = "uni".data || u = "unid".data || u = "u".data then "UNID"
  else if u = "paq".data || u = "paquete".data then "PAQ"
  else String.mk (u.map Char.toUpper)

/-- Python's `round` (round half to even, returning an integer), phrased
on integers so that concrete instances evaluate: the fractional part of
`q` is compared with `1/2` by cross-multiplication with the (positive)
denominator. -/
def pyRound (q : ℚ) : ℤ :=
  let f := q.floor
  if 2 * q.num < (2 * f + 1) * q.den then f
  else if (2 * f + 1) * q.den < 2 * q.num then f + 1
  else if f % 2 = 0 then f else f + 1

/-- Source `str(int(round(total)))` of the source. -/
def totalStr (total : ℚ) : String := toString (pyRound total)

/-- Source `re.search(r"\bkg|kilo\b", unit)` on a captured unit token: the token
is `kg` or `kilo`. -/
def isKiloUnit (u : List Char) : Bool := u = "kg".data || u = "kilo".data

/-- Source `re.search(r"\bl|lt|litro\b", unit)` on a captured unit token: the
token starts with `l` at a word start, i.e. is `l`, `lt` or `litro`. -/
def isLitreUnit (u : List Char) : Bool :=
  u = "l".data || u = "lt".data || u = "litro".data

/-- Step 1 of `parse_unidad_corr` (multipack or direct size). -/
def parseStep1 (d : List Char) : Option (String × Option ℚ × String) :=
  match searchMultipack d with
  | none => none
  | some (count, tok, u) =>
      let size := _to_float tok
      let sym := _norm_unit_symbol u
      if sym = "GR" then
        let total := qMul (qOfNat count) (qMul size (if isKiloUnit u then 1000 else 1))
        some (totalStr total ++ "GR", some total, "GR")
      else if sym = "ML" then
        let total := qMul (qOfNat count) (qMul size (if isLitreUnit u then 1000 else 1))
        some (totalStr total ++ "ML", some total, "ML")
      else none

/-- Step 2 of `parse_unidad_corr` (fractions of kg/l). -/
def parseStep2 (d : List Char) : Option (String × Option ℚ × String) :=
  match searchFraction d with
  | none => none
  | some (num, den, u) =>
      let sym := _norm_unit_symbol u
      let frac := if (qOfNat den) = 0 then 0 else qDiv (qOfNat num) (qOfNat den)
      if sym = "GR" || sym = "ML" then
        let total := qMul frac 1000
        some (totalStr total ++ sym, some total, sym)
      else none

/-- Step 3 of `parse_unidad_corr` (dozens). -/
def parseStep3 (d : List Char) : Option (String × Option ℚ × String) :=
  match searchDocena none d with
  | none => none
  | some true => some ("6UNID", some 6, "UNID")
  | some false => some ("12UNID", some 12, "UNID")

/-- Step 3b of `parse_unidad_corr` (explicit unit/package counts). -/
def parseStep3b (d : List Char) : Option (String × Option ℚ × String) :=
  match searchUnits none d with
  | none => none
  | some (count, u) =>
      let sym := _norm_unit_symbol u
      some (toString count ++ sym, some (qOfNat count),
            if sym = "UNID" then "UNID" else sym)

/-- Step 4 of `parse_unidad_corr` (bare size without `x`). -/
def searchSimpleSize : List Char → Option (List Char × List Char)
  | [] => none
  | c :: t =>
      match matchSizeUnit MULTIPACK_UNITS (c :: t) with
      | some m => some m
      | none => searchSimpleSize t

def parseStep4 (d : List Char) : Option (String × Option ℚ × String) :=
  match searchSimpleSize d with
  | none => none
  | some (tok, u) =>
      let size := _to_float tok
      let sym := _norm_unit_symbol u
      if sym = "GR" then
        let total := qMul size (if isKiloUnit u then 1000 else 1)
        some (totalStr total ++ "GR", some total, "GR")
      else if sym = "ML" then
        let total := qMul size (if isLitreUnit u then 1000 else 1)
        some (totalStr total ++ "ML", some total, "ML")
      else none

/-- Source `parse_unidad_corr`: the cascading pattern priority of the source;
each step's failure (including a match whose unit family falls outside the
step's returns) falls through to the next. -/
def parse_unidad_corr (nombre : String) : String × Option ℚ × String :=
  let d := normalize_text nombre
  match parseStep1 d with
  | some r => r
  | none =>
      match parseStep2 d with
      | some r => r
      | none =>
          match parseStep3 d with
          | some r => r
          | none =>
              match parseStep3b d with
              | some r => r
              | none =>
                  match parseStep4 d with
                  | some r => r
                  | none => ("", none, "")

/-- Source `extract_unit_basic`. -/
def extract_unit_basic (name : String) : String :=
  (parse_unidad_corr name).1

/-- Source `precio_comparable`: `None` when the quantity is missing, zero or
negative; price per 1000 base units for the gram/millilitre families,
price per item for the unit/package families. -/
def precio_comparable (precio : ℚ) (cantidad : Option ℚ) (unidad_sep : String) :
    Option ℚ :=
  match cantidad with
  | none => none
  | some q =>
      if q ≤ 0 then none
      else
        let u := unidad_sep.data.map Char.toUpper
        if u = "GR".data || u = "ML".data then some (qMul precio (qDiv 1000 q))
        else if u = "UNID".data || u = "PAQ".data then some (qDiv precio q)
        else none

/-! ### Records, row assembly, scraping and the incremental sync -/

/-- Source `REQUIRED_COLUMNS`, the canonical row schema in column order. -/
def REQUIRED_COLUMNS : List String :=
  ["Supermercado", "Producto", "Precio", "Unidad", "Unidad_corr", "Cantidad",
   "Unidades_Separado", "Precio_comparable", "Grupo", "Subgrupo",
   "ClasificaProducto", "FechaConsulta"]

/-- Source `KEY_COLS`, the identity key columns of the sync. -/
def KEY_COLS : List String := ["Supermercado", "Producto", "FechaConsulta"]

/-- One assembled record (the dict built by `_assemble_row` /
`BiggieScraper.parse_category`).  Python uses `""` for a missing
`Cantidad`/`Precio_comparable`; we keep them as `Option`.
`FechaConsulta` is absent until `scrape` stamps it; the empty string
models the absent key. -/
structure Row where
  Supermercado : String
  Producto : String
  Precio : ℚ
  Unidad : String
  Unidad_corr : String
  Cantidad : Option ℚ
  Unidades_Separado : String
  Precio_comparable : Option ℚ
  Grupo : String
  Subgrupo : String
  ClasificaProducto : String
  FechaConsulta : String := ""
deriving DecidableEq, Repr

/-- Python `str.upper()` (ASCII, which covers the names at hand). -/
def upperPy (s : String) : String := String.mk (s.data.map Char.toUpper)

/-- Python `str.capitalize()`: first character uppercased, the rest
lowercased. -/
def capitalizePy (s : String) : String :=
  match s.data with
  | [] => ""
  | c :: t => String.mk (c.toUpper :: t.map Char.toLower)

/-- Source `HtmlSiteScraper._assemble_row`: the record assembler shared by all
HTML scrapers.  `none` is the rejection (`return None`) path. -/
def _assemble_row (selfName : String) (nombre : String) (precio : ℚ) : Option Row :=
  if is_excluded nombre then none
  else
    let gs := classify_group_subgroup nombre
    if gs.1 = "" then none
    else
      let clasif := clasifica_producto nombre
      let unidad_simple := extract_unit_basic nombre
      let p := parse_unidad_corr nombre
      let pcomp := precio_comparable precio p.2.1 p.2.2
      some
        { Supermercado := selfName
          Producto := upperPy nombre
          Precio := precio
          Unidad := unidad_simple
          Unidad_corr := p.1
          Cantidad := p.2.1
          Unidades_Separado := p.2.2
          Precio_comparable := pcomp
          Grupo := gs.1
          Subgrupo := gs.2
          ClasificaProducto := clasif }

/-- The loop body of `BiggieScraper.parse_category` for one API item:
the record is appended unconditionally (no exclusion and no empty-group
check on this path). -/
def biggie_item_row (grp : String) (nombre : String) (rawPrice : String) : Row :=
  let precio := norm_price rawPrice
  let gs := classify_group_subgroup nombre
  let clasif := clasifica_producto nombre
  let unidad_simple := extract_unit_basic nombre
  let p := parse_unidad_corr nombre
  let pcomp := precio_comparable precio p.2.1 p.2.2
  { Supermercado := "biggie"
    Producto := upperPy nombre
    Precio := precio
    Unidad := unidad_simple
    Unidad_corr := p.1
    Cantidad := p.2.1
    Unidades_Separado := p.2.2
    Precio_comparable := pcomp
    Grupo := if gs.1 = "" then capitalizePy grp else gs.1
    Subgrupo := gs.2
    ClasificaProducto := clasif }

/-- Source `BiggieScraper.parse_category` over its fetched `(name, price)`
items: one record per item, no filtering. -/
def biggie_parse_category (grp : String) (items : List (String × String)) : List Row :=
  items.map fun it => biggie_item_row grp it.1 it.2

/-- Source `r["FechaConsulta"] = ts`. -/
def setFecha (ts : String) (r : Row) : Row := { r with FechaConsulta := ts }

/-- Source `HtmlSiteScraper.scrape` given the timestamp its single
`datetime.now(...)` call produced and the union of the per-category
parsed rows: keep the rows with positive price and stamp the
timestamp. -/
def html_scrape (ts : String) (parsed : List Row) : List Row :=
  (parsed.filter fun r => decide (0 < r.Precio)).map (setFecha ts)

/-- Source `BiggieScraper.scrape`: stamps every parsed row (no price filter on
this path). -/
def biggie_scrape (ts : String) (parsed : List Row) : List Row :=
  parsed.map (setFecha ts)

/-- One scraper run inside `main`'s loop: HTML scrapers filter on the
price, the Biggie scraper does not; both stamp their own timestamp. -/
def runScraper (isHtml : Bool) (ts : String) (parsed : List Row) : List Row :=
  if isHtml then html_scrape ts parsed else biggie_scrape ts parsed

/-- The `all_rows` accumulation of `main`: scrapers run in sequence and
each `scrape()` call takes its own `datetime.now(timezone.utc)` reading —
`clock i` is the formatted timestamp the `i`-th scraper observes. -/
def main_all_rows (clock : Nat → String) (scrapers : List (Bool × List Row)) : List Row :=
  scrapers.enum.flatMap fun p => runScraper p.2.1 (clock p.1) p.2.2

/-- The string key `df[KEY_COLS].astype(str).agg('|'.join, axis=1)` used
by the sync's set difference. -/
def rowKeyStr (r : Row) : String :=
  r.Supermercado ++ "|" ++ r.Producto ++ "|" ++ r.FechaConsulta

/-- Step 6 of `main`: the fresh rows whose key is not among the store's
current keys (`mask_new`). -/
def sync_new_rows (prev fresh : List Row) : List Row :=
  fresh.filter fun r => !((prev.map rowKeyStr).contains (rowKeyStr r))

/-- One incremental sync: append exactly the new rows to the store. -/
def sync_once (prev fresh : List Row) : List Row :=
  prev ++ sync_new_rows prev fresh

/-- The `values[i:i+chunk]` slices of `_append_rows` (chunk = 5000). -/
def pyChunks {α : Type} (l : List α) : List (List α) :=
  if h : l.isEmpty then []
  else l.take 5000 :: pyChunks (l.drop 5000)
termination_by l.length
decreasing_by
  have hp : 0 < l.length := List.length_pos.mpr (by simpa [List.isEmpty_iff] using h)
  simp [List.length_drop]
  omega

/-- Source `_append_rows`: `ws.append_rows` on each 5000-row slice in order,
each slice landing after the store's current last row. -/
def _append_rows (store : List (List String)) (values : List (List String)) :
    List (List String) :=
  (pyChunks values).foldl (fun acc chunk => acc ++ chunk) store

/-- Step 7 of `main`: `cols_to_write = [c for c in header if c in
new_rows.columns]` — the store's header order restricted to the columns
the new rows carry. -/
def cols_to_write (header cols : List String) : List String :=
  header.filter fun c => cols.contains c

/-- A sample assembled row used to instantiate universally quantified
theorems below. -/
def rowA : Row :=
  { Supermercado := "stock", Producto := "TOMATE PERITA 1KG", Precio := 8000,
    Unidad := "1000GR", Unidad_corr := "1000GR", Cantidad := some 1000,
    Unidades_Separado := "GR", Precio_comparable := some 8000,
    Grupo := "Verduras", Subgrupo := "Tomate", ClasificaProducto := "Tomate fresco" }

end ScrapAgro


namespace ScrapAgro

/-! ## Theorems -/

set_option maxRecDepth 100000

/-- Identification of `qOfNat` with the natural-number cast. -/
theorem qOfNat_eq (n : Nat) : qOfNat n = (n : ℚ) := by
  rw [qOfNat, Rat.divInt_one]
  simp

/-- Identification of `qMul` with multiplication on `ℚ`. -/
theorem qMul_eq (a b : ℚ) : qMul a b = a * b := by
  conv_rhs => rw [← Rat.num_divInt_den a, ← Rat.num_divInt_den b, Rat.divInt_mul_divInt']
  rw [qMul]

/-- Identification of `qDiv` with division on `ℚ`. -/
theorem qDiv_eq (a b : ℚ) : qDiv a b = a / b := by
  conv_rhs => rw [← Rat.num_divInt_den a, ← Rat.num_divInt_den b, Rat.divInt_div_divInt]
  rw [qDiv]

/-- C2. The incremental sync is idempotent: whatever the store state and
the freshly assembled records, running the key-difference-then-append sync
(`sync_once`) and then computing the new rows of a second identical run
(`sync_new_rows`) yields no row to append the second time. -/
theorem sync_idempotent (prev fresh : List Row) :
    sync_new_rows (sync_once prev fresh) fresh = [] := by
  unfold sync_once
  rw [sync_new_rows, List.filter_eq_nil_iff]
  intro r hr
  have hmem : rowKeyStr r ∈ ((prev ++ sync_new_rows prev fresh).map rowKeyStr) := by
    rw [List.map_append, List.mem_append]
    by_cases h : rowKeyStr r ∈ prev.map rowKeyStr
    · exact Or.inl h
    · refine Or.inr (List.mem_map_of_mem rowKeyStr ?_)
      rw [sync_new_rows, List.mem_filter]
      exact ⟨hr, by simpa using h⟩
  simp only [List.mem_map, List.mem_append] at hmem
  obtain ⟨x, hx, hkey⟩ := hmem
  simp
  intro hall
  rcases hx with hp | hn
  · exact absurd hkey (hall x hp)
  · exact ⟨x, hn, hkey⟩

/-- C6. The price normalizer is total by construction, only ever looks at
the digits, commas and periods of its input (first conjunct), and parses
the two specified examples to `15000.50` and `0.0`. -/
theorem norm_price_spec :
    (∀ s : String, norm_price s =
       norm_price (String.mk (s.data.filter fun c => c.isDigit || c = ',' || c = '.')))
    ∧ norm_price "15.000,50" = 30001 / 2
    ∧ norm_price "abc" = 0 := by
  refine ⟨fun s => ?_, ?_, by decide⟩
  · simp [norm_price, List.filter_filter]
  · rw [show norm_price "15.000,50" = Rat.divInt 30001 2 from by decide,
      Rat.divInt_eq_div]
    norm_num

/-- C10. Periods inside a matched numeric size token are removed before
conversion (they are thousands separators even there): `_to_float` is
invariant under first deleting every period, so `"1.5 kg"` parses as
size 15 (15000 grams) while `"1,5 kg"` parses as 1.5 (1500 grams). -/
theorem size_token_period_spec :
    (∀ l : List Char, _to_float l = _to_float (l.filter fun c => c != '.'))
    ∧ parse_unidad_corr "1.5 kg" = ("15000GR", some 15000, "GR")
    ∧ parse_unidad_corr "1,5 kg" = ("1500GR", some 1500, "GR") := by
  refine ⟨fun l => ?_, by decide, by decide⟩
  simp [_to_float, List.filter_filter]

/-- C5 (counterexample). A name may well contain the substring
`"2 x 500 g"` and still not parse to 1000 grams: the parser takes the
leftmost size match, so `"1 g 2 x 500 g"` parses as 1 gram. -/
theorem multipack_containing_counterexample :
    containsSub "2 x 500 g".data (normalize_text "1 g 2 x 500 g") = true
    ∧ parse_unidad_corr "1 g 2 x 500 g" = ("1GR", some 1, "GR")
    ∧ parse_unidad_corr "1 g 2 x 500 g" ≠ ("1000GR", some 1000, "GR") :=
  ⟨by decide, by decide, by decide⟩

/-- A multipack/size match can only start at a digit, so scanning skips
any non-digit position. -/
theorem matchMultipackAt_of_not_digit (c : Char) (t : List Char)
    (hc : c.isDigit = false) : matchMultipackAt (c :: t) = none := by
  simp [matchMultipackAt, matchSizeUnit, takeDigits, hc]

/-- The leftmost `RE_MULTIPACK` search is unaffected by a digit-free
prefix. -/
theorem searchMultipack_append (pre rest : List Char)
    (h : ∀ c ∈ pre, c.isDigit = false) :
    searchMultipack (pre ++ rest) = searchMultipack rest := by
  induction pre with
  | nil => rfl
  | cons c t ih =>
      rw [List.cons_append, searchMultipack,
        matchMultipackAt_of_not_digit c (t ++ rest) (h c (List.mem_cons_self _ _))]
      exact ih fun x hx => h x (List.mem_cons_of_mem _ hx)

/-- At `g…`, the unit alternation settles on the alternative `g` as soon
as the trailing `\b` holds (the earlier alternatives `kg` and `kilo`
cannot start with `g`). -/
theorem matchUnitAlt_g (suf : List Char)
    (hb : isBoundary (some 'g') suf.head? = true) :
    matchUnitAlt MULTIPACK_UNITS ('g' :: suf) = some "g".data := by
  simp [matchUnitAlt, MULTIPACK_UNITS, List.find?, List.isPrefixOf, hb]

/-- The size-and-unit pattern on `500 g` followed by any boundary-valid
tail captures size `500` and unit `g`. -/
theorem matchSizeUnit_500 (suf : List Char)
    (hb : isBoundary (some 'g') suf.head? = true) :
    matchSizeUnit MULTIPACK_UNITS ("500 g".data ++ suf) = some ("500".data, "g".data) := by
  have h := matchUnitAlt_g suf hb
  simp [matchSizeUnit, takeDigits, skipWs, isWs, h]

/-- `RE_MULTIPACK` at `2 x 500 g…` captures count 2, size `500`,
unit `g`. -/
theorem matchMultipackAt_core (suf : List Char)
    (hb : isBoundary (some 'g') suf.head? = true) :
    matchMultipackAt ("2 x 500 g".data ++ suf) = some (2, "500".data, "g".data) := by
  have h := matchSizeUnit_500 suf hb
  simp only [List.cons_append, List.nil_append] at h
  simp [matchMultipackAt, takeDigits, skipWs, isWs, natOfDigits, h]

/-- Searching `2 x 500 g…` succeeds at the very first position. -/
theorem searchMultipack_core (suf : List Char)
    (hb : isBoundary (some 'g') suf.head? = true) :
    searchMultipack ("2 x 500 g".data ++ suf) = some (2, "500".data, "g".data) := by
  rw [show ("2 x 500 g".data ++ suf) = '2' :: (" x 500 g".data ++ suf) from rfl,
    searchMultipack]
  rw [show '2' :: (" x 500 g".data ++ suf) = "2 x 500 g".data ++ suf from rfl,
    matchMultipackAt_core suf hb]

/-- C5 (amended). For every name in which the `2 x 500 g` occurrence is
the leftmost size/count token — the normalized name is a digit-free
prefix, then `2 x 500 g` ending at a word boundary, then any tail — the
unit parser returns quantity 1000, family `GR` and canonical string
`"1000GR"` (count times size, grams already in base units). -/
theorem multipack_leftmost_spec (name : String) (pre suf : List Char)
    (hpre : ∀ c ∈ pre, c.isDigit = false)
    (hb : isBoundary (some 'g') suf.head? = true)
    (hd : normalize_text name = pre ++ ("2 x 500 g".data ++ suf)) :
    parse_unidad_corr name = ("1000GR", some 1000, "GR") := by
  have hs : searchMultipack (normalize_text name) = some (2, "500".data, "g".data) := by
    rw [hd, searchMultipack_append pre _ hpre, searchMultipack_core suf hb]
  have h1 : parseStep1 (normalize_text name) = some ("1000GR", some 1000, "GR") := by
    simp only [parseStep1]
    rw [hs]
    decide
  simp [parse_unidad_corr, h1]

/-- Witness for C5's amended theorem: a digit-free prefix before the
multipack token. -/
theorem multipack_leftmost_spec_witness :
    (∀ c ∈ "galletitas rellenas ".data, c.isDigit = false)
    ∧ parse_unidad_corr "galletitas rellenas 2 x 500 g" = ("1000GR", some 1000, "GR") :=
  ⟨by decide,
   multipack_leftmost_spec "galletitas rellenas 2 x 500 g" "galletitas rellenas ".data []
     (by decide) (by decide) (by decide)⟩

/-- C1 (amended). On the `HtmlSiteScraper._assemble_row` path an excluded
name yields no record, whatever the price and whatever group keywords the
name also contains. -/
theorem excluded_name_no_record (site nombre : String) (precio : ℚ)
    (h : is_excluded nombre = true) :
    _assemble_row site nombre precio = none := by
  unfold _assemble_row
  simp [h]

/-- Witness for C1's theorem at a concrete excluded listing. -/
theorem excluded_name_no_record_witness :
    is_excluded "combo tomate 1kg" = true
    ∧ _assemble_row "stock" "combo tomate 1kg" 5000 = none :=
  ⟨by decide, excluded_name_no_record "stock" "combo tomate 1kg" 5000 (by decide)⟩

/-- C1 (counterexample). The Biggie path has no exclusion check: the
excluded name `"combo tomate 1kg"` still produces a record there, with a
positive price (so it also survives `main`'s price filter). -/
theorem excluded_name_biggie_counterexample :
    is_excluded "combo tomate 1kg" = true
    ∧ biggie_parse_category "verduras" [("combo tomate 1kg", "5000")]
        = [biggie_item_row "verduras" "combo tomate 1kg" "5000"]
    ∧ (biggie_item_row "verduras" "combo tomate 1kg" "5000").Precio = 5000
    ∧ (biggie_item_row "verduras" "combo tomate 1kg" "5000").Producto = "COMBO TOMATE 1KG"
    ∧ (biggie_item_row "verduras" "combo tomate 1kg" "5000").Grupo = "Verduras" :=
  ⟨by decide, rfl, by decide, by decide, by decide⟩

/-- C8 (counterexample). A parsed quantity ending in .5 does not always
round upward: `"2,5 gr"` yields the canonical string `"2GR"`, not `"3GR"`. -/
theorem round_half_up_counterexample :
    parse_unidad_corr "2,5 gr" = ("2GR", some (Rat.divInt 5 2), "GR")
    ∧ (parse_unidad_corr "2,5 gr").1 ≠ "3GR" :=
  ⟨by decide, by decide⟩

/-- Unfolding lemma for `maxScore`. -/
theorem maxScore_cons (e : String × String × Nat) (l : List (String × String × Nat)) :
    maxScore (e :: l) = max e.2.2 (maxScore l) := rfl

/-- Every entry's score is at most the best score. -/
theorem le_maxScore_of_mem {l : List (String × String × Nat)}
    {e : String × String × Nat} (he : e ∈ l) : e.2.2 ≤ maxScore l := by
  induction l with
  | nil => cases he
  | cons h t ih =>
      rw [maxScore_cons]
      rcases List.mem_cons.mp he with rfl | ht
      · exact le_max_left _ _
      · exact le_trans (ih ht) (le_max_right _ _)

/-- A running best that already dominates every entry never changes. -/
theorem pickFold_of_le (l : List (String × String × Nat)) (b : String × String × Nat)
    (hall : ∀ e ∈ l, e.2.2 ≤ b.2.2) : l.foldl pickStep b = b := by
  induction l generalizing b with
  | nil => rfl
  | cons h t ih =>
      rw [List.foldl_cons]
      have hh : h.2.2 ≤ b.2.2 := hall h (List.mem_cons_self _ _)
      have hstep : pickStep b h = b := by rw [pickStep, if_neg (not_lt.mpr hh)]
      rw [hstep]
      exact ih b fun e he => hall e (List.mem_cons_of_mem _ he)

/-- The strict-improvement fold of `classify_group_subgroup` lands on the
first entry (in declaration order) attaining the best score, whenever the
best score beats the starting value. -/
theorem pickFold_find (l : List (String × String × Nat)) :
    ∀ b : String × String × Nat, b.2.2 < maxScore l →
    ∃ e, l.find? (fun x => decide (maxScore l ≤ x.2.2)) = some e ∧ l.foldl pickStep b = e := by
  induction l with
  | nil => intro b hb; simp [maxScore] at hb
  | cons h t ih =>
      intro b hb
      by_cases hbh : b.2.2 < h.2.2
      · have hstep : pickStep b h = h := by rw [pickStep, if_pos hbh]
        by_cases hht : maxScore t ≤ h.2.2
        · have hM : maxScore (h :: t) = h.2.2 := by
            rw [maxScore_cons]; exact max_eq_left hht
          refine ⟨h, ?_, ?_⟩
          · rw [List.find?_cons_of_pos _ (by simp [hM])]
          · rw [List.foldl_cons, hstep]
            exact pickFold_of_le t h fun e he => le_trans (le_maxScore_of_mem he) hht
        · push_neg at hht
          have hM : maxScore (h :: t) = maxScore t := by
            rw [maxScore_cons]; exact max_eq_right (le_of_lt hht)
          obtain ⟨e, hfind, hfold⟩ := ih h hht
          refine ⟨e, ?_, ?_⟩
          · rw [List.find?_cons_of_neg _ (by simp [hM]; omega)]
            simpa [hM] using hfind
          · rw [List.foldl_cons, hstep]
            exact hfold
      · push_neg at hbh
        have hstep : pickStep b h = b := by rw [pickStep, if_neg (not_lt.mpr hbh)]
        have hbt : b.2.2 < maxScore t := by
          rw [maxScore_cons] at hb
          rcases le_or_lt (maxScore t) h.2.2 with hle | hlt
          · rw [max_eq_left hle] at hb; omega
          · rwa [max_eq_right (le_of_lt hlt)] at hb
        have hM : maxScore (h :: t) = maxScore t := by
          rw [maxScore_cons]
          exact max_eq_right (le_of_lt (lt_of_le_of_lt hbh hbt))
        obtain ⟨e, hfind, hfold⟩ := ih b hbt
        refine ⟨e, ?_, ?_⟩
        · rw [List.find?_cons_of_neg _ (by simp [hM]; omega)]
          simpa [hM] using hfind
        · rw [List.foldl_cons, hstep]
          exact hfold

/-- No taxonomy entry carries an empty group name. -/
theorem scored_entry_group_ne (d : List Char) :
    ∀ e ∈ scoredEntries d, e.1 ≠ "" := by
  intro e he
  rw [scoredEntries, List.mem_flatMap] at he
  obtain ⟨gp, hgp, he2⟩ := he
  rw [List.mem_map] at he2
  obtain ⟨sp, _, rfl⟩ := he2
  have hgn : ∀ gp ∈ TAXONOMY, gp.1 ≠ "" := by decide
  exact hgn gp hgp

/-- C7. Classification is deterministic with declaration-order tie-break:
`classify_group_subgroup` is a pure function (so two runs on the same name
agree definitionally), and whenever some pair scores positively, the
returned pair is the first entry in taxonomy declaration order attaining
the maximal score (so a strictly highest score wins, and an equal best
score goes to the earlier-declared pair). -/
theorem classify_first_max (name : String)
    (h : 0 < maxScore (scoredEntries (normalize_text name))) :
    ∃ e, (scoredEntries (normalize_text name)).find?
          (fun x => decide (maxScore (scoredEntries (normalize_text name)) ≤ x.2.2)) = some e
      ∧ classify_group_subgroup name = (e.1, e.2.1) := by
  obtain ⟨e, hfind, hfold⟩ :=
    pickFold_find (scoredEntries (normalize_text name)) ("", "", 0) h
  refine ⟨e, hfind, ?_⟩
  have he : e ∈ scoredEntries (normalize_text name) := List.mem_of_find?_eq_some hfind
  have hne : e.1 ≠ "" := scored_entry_group_ne _ e he
  simp only [classify_group_subgroup, pickBest]
  rw [hfold, if_neg hne]

/-- Witness for C7 at a name where two pairs tie at the best score 4
(`Huevo Gallina` and `Huevo Codorniz`): the first-declared pair wins. -/
theorem classify_first_max_witness :
    0 < maxScore (scoredEntries (normalize_text "huevo de codorniz"))
    ∧ classify_group_subgroup "huevo de codorniz" = ("Huevos", "Huevo Gallina") := by
  refine ⟨by decide, ?_⟩
  obtain ⟨e, hfind, hc⟩ := classify_first_max "huevo de codorniz" (by decide)
  have hval : (scoredEntries (normalize_text "huevo de codorniz")).find?
        (fun x => decide (maxScore (scoredEntries (normalize_text "huevo de codorniz")) ≤ x.2.2))
      = some ("Huevos", "Huevo Gallina", 4) := by decide
  rw [hval] at hfind
  cases hfind
  exact hc

/-- Chunked appending equals plain concatenation: the 5000-row slices of
`_append_rows` land in order after the existing store rows. -/
theorem pyChunks_foldl (values : List (List String)) :
    ∀ store : List (List String),
      (pyChunks values).foldl (fun acc chunk => acc ++ chunk) store = store ++ values := by
  induction values using pyChunks.induct with
  | case1 l hl =>
      intro store
      rw [pyChunks, dif_pos hl]
      rw [List.isEmpty_iff] at hl
      simp [hl]
  | case2 l hl ih =>
      intro store
      rw [pyChunks, dif_neg hl, List.foldl_cons, ih, List.append_assoc,
        List.take_append_drop]

/-- C9. Appending the new rows preserves the store's column order and row
order: the appended block is written in column order `cols_to_write`
(a sublist of the store's header), `_append_rows` is exactly
`store ++ values`, and the `j`-th appended row lands at sheet position
`store.length + j` — the row indices continue the store's current row
count and grow strictly monotonically. -/
theorem append_rows_spec (store values : List (List String)) (header cols : List String) :
    _append_rows store values = store ++ values
    ∧ (∀ j : Nat, (_append_rows store values)[store.length + j]? = values[j]?)
    ∧ StrictMono (fun j : Nat => store.length + j)
    ∧ (cols_to_write header cols).Sublist header := by
  have h1 : _append_rows store values = store ++ values := pyChunks_foldl values store
  refine ⟨h1, fun j => ?_, fun a b hab => by show store.length + a < store.length + b; omega, List.filter_sublist _⟩
  rw [h1, List.getElem?_append_right (Nat.le_add_right _ _)]
  congr 1
  omega

/-- Witness for C9 at a concrete store and batch. -/
theorem append_rows_spec_witness :
    _append_rows [["a"]] [["b"], ["c"]] = [["a"], ["b"], ["c"]]
    ∧ (_append_rows [["a"]] [["b"], ["c"]])[1 + 0]? = some ["b"] :=
  ⟨(append_rows_spec [["a"]] [["b"], ["c"]] [] []).1,
   ((append_rows_spec [["a"]] [["b"], ["c"]] [] []).2.1 0).trans (by decide)⟩

/-- C3 (amended). Every row a scraper's `scrape` produces carries the
timestamp that scrape read from the clock; rows of one `main` run all
agree exactly when the per-scraper clock readings agree (each scraper
takes its own `datetime.now` reading, so readings at different seconds
give different `FechaConsulta` values across scrapers). -/
theorem fecha_consulta_spec :
    (∀ (isHtml : Bool) (ts : String) (parsed : List Row) (r : Row),
        r ∈ runScraper isHtml ts parsed → r.FechaConsulta = ts)
    ∧ (∀ (clock : Nat → String) (scrapers : List (Bool × List Row)),
        (∀ i, clock i = clock 0) →
        ∀ r ∈ main_all_rows clock scrapers, r.FechaConsulta = clock 0) := by
  have hrun : ∀ (b : Bool) (ts : String) (parsed : List Row) (r : Row),
      r ∈ runScraper b ts parsed → r.FechaConsulta = ts := by
    intro b ts parsed r hr
    cases b with
    | false =>
        simp only [runScraper, Bool.false_eq_true, if_false, biggie_scrape,
          List.mem_map] at hr
        obtain ⟨r0, _, rfl⟩ := hr
        rfl
    | true =>
        simp only [runScraper, if_true, html_scrape, List.mem_map] at hr
        obtain ⟨r0, _, rfl⟩ := hr
        rfl
  refine ⟨hrun, ?_⟩
  intro clock scrapers hclock r hr
  rw [main_all_rows, List.mem_flatMap] at hr
  obtain ⟨p, hp, hrp⟩ := hr
  rw [hrun p.2.1 (clock p.1) p.2.2 r hrp]
  exact hclock p.1

/-- Witness for C3's amended theorem with a constant clock. -/
theorem fecha_consulta_spec_witness :
    (setFecha "2024-01-01 00:00:00" rowA).FechaConsulta = "2024-01-01 00:00:00" :=
  fecha_consulta_spec.2 (fun _ => "2024-01-01 00:00:00") [(true, [rowA])]
    (fun _ => rfl) (setFecha "2024-01-01 00:00:00" rowA) (by decide)

/-- C3 (counterexample). When the clock readings of two scrapers fall in
different seconds, one run of `main` collects rows whose `FechaConsulta`
values differ — the claim that all rows of one run share one value fails. -/
theorem fecha_consulta_counterexample :
    ¬ (∀ r ∈ main_all_rows
          (fun i => if i = 0 then "2024-01-01 00:00:00" else "2024-01-01 00:00:01")
          [(true, [rowA]), (true, [rowA])],
        ∀ t ∈ main_all_rows
          (fun i => if i = 0 then "2024-01-01 00:00:00" else "2024-01-01 00:00:01")
          [(true, [rowA]), (true, [rowA])],
        r.FechaConsulta = t.FechaConsulta) := by
  decide

/-- C4. The comparable price is `p * (1000 / q)` for the gram/millilitre
families, `p / q` for the unit/package families, and `None` when the
quantity is missing or nonpositive. -/
theorem precio_comparable_spec (p q : ℚ) (u : String) :
    ((u = "GR" ∨ u = "ML") → 0 < q →
        precio_comparable p (some q) u = some (p * (1000 / q)))
    ∧ ((u = "UNID" ∨ u = "PAQ") → 0 < q →
        precio_comparable p (some q) u = some (p / q))
    ∧ (q ≤ 0 → precio_comparable p (some q) u = none)
    ∧ precio_comparable p none u = none := by
  refine ⟨?_, ?_, ?_, rfl⟩
  · rintro (rfl | rfl) hq
    · rw [precio_comparable, if_neg (not_le.mpr hq), if_pos (by decide), qMul_eq, qDiv_eq]
    · rw [precio_comparable, if_neg (not_le.mpr hq), if_pos (by decide), qMul_eq, qDiv_eq]
  · rintro (rfl | rfl) hq
    · rw [precio_comparable, if_neg (not_le.mpr hq), if_neg (by decide),
        if_pos (by decide), qDiv_eq]
    · rw [precio_comparable, if_neg (not_le.mpr hq), if_neg (by decide),
        if_pos (by decide), qDiv_eq]
  · intro hq
    rw [precio_comparable, if_pos hq]

/-- Witness for C4: price 15000 over 500 grams is 30000 per kilogram. -/
theorem precio_comparable_spec_witness :
    precio_comparable 15000 (some 500) "GR" = some 30000 ∧ (0 : ℚ) < 500 := by
  refine ⟨?_, by norm_num⟩
  rw [(precio_comparable_spec 15000 500 "GR").1 (Or.inl rfl) (by norm_num)]
  norm_num

/-- Identification of `Rat.floor` with the floor of the ordered field. -/
theorem ratFloorEq (q : ℚ) : q.floor = ⌊q⌋ :=
  (Rat.floor_def' q).trans Rat.floor_def.symm

/-- Cross-multiplication by the (positive) denominator, as used by
`pyRound`'s comparisons. -/
theorem two_mul_num_eq_iff (q : ℚ) (k : ℤ) :
    2 * q.num = k * q.den ↔ 2 * q = (k : ℚ) := by
  have hden : ((q.den : ℚ)) ≠ 0 := by
    exact_mod_cast q.den_nz
  rw [show (2 : ℚ) * q = ((2 * q.num : ℤ) : ℚ) / ((q.den : ℕ) : ℚ) by
        push_cast
        rw [mul_div_assoc, Rat.num_div_den],
    div_eq_iff hden]
  exact_mod_cast Iff.rfl

/-- Python's `round` sends `n + 1/2` to the nearer even integer: `n` when
`n` is even, `n + 1` when `n` is odd. -/
theorem pyRound_half (n : ℤ) :
    pyRound ((n : ℚ) + 1 / 2) = if n % 2 = 0 then n else n + 1 := by
  have hfl : ((n : ℚ) + 1 / 2).floor = n := by
    rw [ratFloorEq, Int.floor_int_add]
    norm_num
  have h2q : (2 : ℚ) * ((n : ℚ) + 1 / 2) = ((2 * n + 1 : ℤ) : ℚ) := by
    push_cast
    ring
  have heq : 2 * ((n : ℚ) + 1 / 2).num = (2 * n + 1) * ((n : ℚ) + 1 / 2).den :=
    (two_mul_num_eq_iff _ _).mpr h2q
  simp only [pyRound]
  rw [hfl, if_neg (by omega), if_neg (by omega)]

/-- C8 (amended). The canonical unit string is `str(int(round(q)))` with
Python's round-half-to-even, not round-half-up: a parsed quantity ending
in .5 rounds to the nearest even integer, so `"2,5 gr"` gives `"2GR"` and
`"3,5 gr"` gives `"4GR"`; in general `pyRound (n + 1/2)` is `n` for even
`n` and `n + 1` for odd `n`. -/
theorem round_half_even_spec :
    parse_unidad_corr "2,5 gr" = ("2GR", some (Rat.divInt 5 2), "GR")
    ∧ parse_unidad_corr "3,5 gr" = ("4GR", some (Rat.divInt 7 2), "GR")
    ∧ Rat.divInt 5 2 = (2 : ℚ) + 1 / 2
    ∧ (∀ n : ℤ, pyRound ((n : ℚ) + 1 / 2) = if n % 2 = 0 then n else n + 1) := by
  refine ⟨by decide, by decide, ?_, pyRound_half⟩
  rw [Rat.divInt_eq_div]
  norm_num

end ScrapAgro
